import Mathlib

/-!
# Local Farmers Marketplace — verification of the order fulfillment pipeline

Shallow embedding of the order fulfillment pipeline of the
`local-farmers-marketplace` Next.js application:

* `POST /api/orders`            (order creation, `src/unnamed/part_001` lines 73-229)
* `POST /api/webhooks/stripe`   (payment confirmation, `src/src/app/api/webhooks/stripe/route.ts`)
* `GET /api/orders/[orderId]`   (order read, `src/unnamed/part_001` lines 257-319)
* `PUT /api/orders/[orderId]`   (order status update, `src/unnamed/part_001` lines 325-447)

The Mongo/Mongoose database is modelled as an explicit state (`DB`): a list of
products, a list of orders and the append-only notification ledger.  Object ids
are modelled as `Nat`; JavaScript numbers used for quantities and prices are
modelled as `Int` (the code imposes no lower bound on a stored quantity, so a
natural-number model would be unsound).  Real-time dispatch (Pusher / Socket.IO
emission) is modelled as a list of `(recipient, message)` events produced by a
handler, parameterised by a `Nat → Bool` oracle saying whether the dispatch to a
given recipient's channel succeeds (an exception from `pusher.trigger` is the
`false` case).
-/

namespace Marketplace

/-- Payment status of an order: the schema uses `pending` / `paid`. -/
inductive PaymentStatus where
  | pending
  | paid
  deriving DecidableEq, Repr

/-- A product document: `_id`, `name`, owning `farmer`, unit `price`,
available `quantity`.  Quantity is an `Int` because the webhook handler
decrements it with an unguarded `$inc`. -/
structure Product where
  id : Nat
  name : String
  farmer : Nat
  price : Int
  quantity : Int
  deriving DecidableEq, Repr

/-- A line item of an order: product id, ordered quantity, unit price captured
at order-creation time (`orderItems.push({product, quantity, price})`). -/
structure OrderItem where
  product : Nat
  quantity : Int
  price : Int
  deriving DecidableEq, Repr

/-- An order document, with the fields the pipeline reads and writes. -/
structure Order where
  id : Nat
  customer : Nat
  items : List OrderItem
  totalAmount : Int
  paymentStatus : PaymentStatus
  fulfillment : String
  stripePaymentIntentId : Option Nat
  deriving DecidableEq, Repr

/-- A row of the Notification ledger (`models/Notification`): recipient,
message, optional link.  The `read` flag defaults to `false` and is never
touched by the pipeline, so it is omitted. -/
structure Notification where
  user : Nat
  message : String
  link : Option String
  deriving DecidableEq, Repr

/-- The database state threaded through the handlers. -/
structure DB where
  products : List Product
  orders : List Order
  notifications : List Notification
  deriving DecidableEq, Repr

/-- `Product.findById`: first product with the given id. -/
def findProduct (ps : List Product) (pid : Nat) : Option Product :=
  ps.find? (fun p => p.id = pid)

/-- `Order.findById`: first order with the given id. -/
def findOrder (db : DB) (oid : Nat) : Option Order :=
  db.orders.find? (fun o => o.id = oid)

/-- Overwrite the quantity of the product with the given id
(`product.save()` after `product.quantity -= item.quantity`, and
`Product.findByIdAndUpdate(id, {$inc: ...})`, both expressed as
"store this new quantity"). -/
def setQuantity (ps : List Product) (pid : Nat) (q : Int) : List Product :=
  ps.map (fun p => if p.id = pid then { p with quantity := q } else p)

/-- `order.save()`: overwrite the order with the same id. -/
def saveOrder (os : List Order) (o : Order) : List Order :=
  os.map (fun o2 => if o2.id = o.id then o else o2)

/-- `Set.add` preserving insertion order: used for the distinct-farmer sets. -/
def addDistinct (l : List Nat) (x : Nat) : List Nat :=
  if x ∈ l then l else l ++ [x]

/-- Observed available quantity in a product list (0 when absent). -/
def pQty (ps : List Product) (pid : Nat) : Int :=
  match findProduct ps pid with
  | some p => p.quantity
  | none => 0

/-- Observed available quantity of a product (0 when the product is absent). -/
def qtyOf (db : DB) (pid : Nat) : Int :=
  pQty db.products pid

/-- Total quantity of a given product ordered across the items of an order. -/
def orderedQty (items : List OrderItem) (pid : Nat) : Int :=
  items.foldr (fun it acc => if it.product = pid then it.quantity + acc else acc) 0

/-! ## Payment confirmation processor — `POST /api/webhooks/stripe`

The handler loads the order, and when `paymentStatus !== "paid"`:
sets it to `paid`, runs `Product.findByIdAndUpdate(_id, {$inc: {quantity: -item.quantity}})`
for every item while collecting the distinct farmer ids, saves the order, and
then `await pusher.trigger(...)` for each farmer in turn.  There is no
transaction: the `$inc` updates and the `order.save()` are immediately durable,
and a thrown `pusher.trigger` aborts the loop and reaches the catch block,
which answers HTTP 400. -/

/-- Result of one webhook delivery: HTTP status, resulting database state, and
the real-time events actually triggered, in order. -/
structure HookResult where
  status : Nat
  db : DB
  dispatched : List (Nat × String)
  deriving DecidableEq, Repr

/-- Outcome of the stock-decrement loop of the webhook handler. -/
structure DecOut where
  products : List Product
  farmers : List Nat
  ok : Bool
  deriving DecidableEq, Repr

/-- The `for (const item of order.items)` loop of the webhook handler:
decrement each item's product quantity by the ordered quantity (no stock
check), collecting the distinct farmer ids in first-seen order.  An item whose
product no longer exists corresponds to a `null` populated product, whose
dereference throws: the loop stops with `ok := false` and the decrements
already applied stand (`findByIdAndUpdate` is not transactional). -/
def decLoop : List OrderItem → List Product → List Nat → DecOut
  | [], ps, fs => ⟨ps, fs, true⟩
  | it :: rest, ps, fs =>
    match findProduct ps it.product with
    | none => ⟨ps, fs, false⟩
    | some p =>
        decLoop rest (setQuantity ps p.id (p.quantity - it.quantity)) (addDistinct fs p.farmer)

/-- The distinct farmers notified by the webhook for a given order, in the
order the loop discovers them. -/
def webhookFarmers (items : List OrderItem) (ps : List Product) : List Nat :=
  (decLoop items ps []).farmers

/-- The "new sale" message the webhook pushes to a farmer channel. -/
def saleMsg (oid : Nat) : String :=
  "You have a new sale! Order #" ++ toString oid

/-- The `for (const farmerId of farmerIdsToNotify)` dispatch loop:
`await pusher.trigger` for each farmer; a failure throws, so later farmers are
never attempted.  Returns the events that fired and whether all succeeded. -/
def dispatchAll : List Nat → String → (Nat → Bool) → List (Nat × String) × Bool
  | [], _, _ => ([], true)
  | f :: rest, msg, okf =>
    if okf f then
      let r := dispatchAll rest msg okf
      ((f, msg) :: r.1, r.2)
    else ([], false)

/-- `POST /api/webhooks/stripe` for a `payment_intent.succeeded` event whose
metadata carries `orderId = oid` and whose signature verified.  `okf` says
whether the dispatch to a given farmer's channel succeeds. -/
def handleWebhook (db : DB) (oid : Nat) (okf : Nat → Bool) : HookResult :=
  match findOrder db oid with
  | none => ⟨404, db, []⟩
  | some o =>
    if o.paymentStatus = PaymentStatus.paid then
      ⟨200, db, []⟩
    else
      let d := decLoop o.items db.products []
      if d.ok then
        let db' : DB :=
          { db with
            products := d.products
            orders := saveOrder db.orders { o with paymentStatus := PaymentStatus.paid } }
        let r := dispatchAll d.farmers (saleMsg oid) okf
        if r.2 then ⟨200, db', r.1⟩ else ⟨400, db', r.1⟩
      else
        ⟨400, { db with products := d.products }, []⟩

/-! ## Order creation coordinator — `POST /api/orders`

The handler opens a Mongo session transaction, validates the request, processes
the items inside the transaction (fetch product, check stock, decrement, record
the line item and accumulate the total), persists the order, calls
`createPaymentIntent` **before** `session.commitTransaction()` when the payment
method is `"stripe"`, commits, and only then writes the notifications.  Any
throw reaches the catch block, which aborts the transaction: none of the
in-transaction writes survive. -/

/-- The error a failing item throws inside the creation loop.  The code throws
`Error` objects with these exact message strings; the catch block maps any
message containing `"Insufficient stock"` or `"not found"` to HTTP 400. -/
inductive ItemErr where
  | productNotFound (pid : Nat)
  | insufficientStock (name : String)
  deriving DecidableEq, Repr

/-- The thrown message: `Product ${item.product} not found` /
`Insufficient stock for ${product.name}`. -/
def ItemErr.msg : ItemErr → String
  | .productNotFound pid => "Product " ++ toString pid ++ " not found"
  | .insufficientStock n => "Insufficient stock for " ++ n

/-- A requested `(product, quantity)` pair from the JSON body. -/
structure ReqItem where
  product : Nat
  quantity : Int
  deriving DecidableEq, Repr

/-- The parsed `POST /api/orders` body (only the fields the handler reads). -/
structure CreateReq where
  items : List ReqItem
  shippingAddress : Option String
  paymentMethod : String
  deriving DecidableEq, Repr

/-- Successful outcome of the item loop: updated product list, order items in
input order, and the accumulated total amount. -/
structure ItemsOut where
  products : List Product
  orderItems : List OrderItem
  total : Int
  deriving DecidableEq, Repr

/-- The `for (const item of items)` loop of `POST /api/orders`: fetch the
product (throw `productNotFound` if absent), throw `insufficientStock`
(naming the product) if `product.quantity < item.quantity`, otherwise
decrement the product's quantity, accumulate `price * quantity` into the
total and push the line item with the captured unit price.  The products
list is threaded, so a duplicated product id sees its earlier decrements. -/
def processItems : List ReqItem → List Product → Except ItemErr ItemsOut
  | [], ps => .ok ⟨ps, [], 0⟩
  | it :: rest, ps =>
    match findProduct ps it.product with
    | none => .error (.productNotFound it.product)
    | some p =>
      if p.quantity < it.quantity then
        .error (.insufficientStock p.name)
      else
        match processItems rest (setQuantity ps p.id (p.quantity - it.quantity)) with
        | .error e => .error e
        | .ok out =>
            .ok ⟨out.products,
                 ⟨p.id, it.quantity, p.price⟩ :: out.orderItems,
                 p.price * it.quantity + out.total⟩

/-- Events of the order-creation handler, in program order, used to place the
payment-gateway network call relative to the transaction boundary. -/
inductive Ev where
  | txBegin
  | stockDec (pid : Nat) (qty : Int)
  | persistOrder (oid : Nat)
  | gatewayCall (amount : Int) (oid : Nat)
  | persistIntent (oid : Nat)
  | txCommit
  | txAbort
  | notifWrite (user : Nat)
  | rtEmit (user : Nat)
  deriving DecidableEq, Repr

/-- Result of `POST /api/orders`: HTTP status, `error` message if any, the id
of the created order, the resulting database, the real-time events emitted and
the event trace. -/
structure CreateResult where
  status : Nat
  error : Option String
  orderId : Option Nat
  db : DB
  dispatched : List (Nat × String)
  trace : List Ev
  deriving Repr

/-- Distinct farmers of the products appearing in the created order, computed
after commit from `Product.find({_id: {$in: productIds}})` (database order,
deduplicated by the `Set`). -/
def creationFarmers (ps : List Product) (pids : List Nat) : List Nat :=
  ((ps.filter (fun p => pids.contains p.id)).map (fun p => p.farmer)).foldl addDistinct []

/-- Notification message to a farmer after order creation. -/
def newOrderMsg (oid : Nat) : String :=
  "You have a new order (#" ++ toString oid ++ ") containing your products."

/-- Notification message to the buyer after order creation. -/
def orderPlacedMsg (oid : Nat) : String :=
  "Your order #" ++ toString oid ++ " has been placed successfully!"

/-- `POST /api/orders` for an authenticated buyer `user`.  The fresh order id
is the number of orders already stored.  The payment-gateway adapter
(`createPaymentIntent` from `lib/stripe`, not part of the pipeline sources) is
modelled from the spec interface `createIntent(amount, orderId) -> intentId`:
it always succeeds and its intent id is correlated to the order id. -/
def createOrder (user : Nat) (req : CreateReq) (db : DB) : CreateResult :=
  if req.items = [] then
    ⟨400, some "Order must contain at least one item", none, db, [], [.txBegin, .txAbort]⟩
  else if req.shippingAddress = none then
    ⟨400, some "Shipping address is required", none, db, [], [.txBegin, .txAbort]⟩
  else
    match processItems req.items db.products with
    | .error e => ⟨400, some e.msg, none, db, [], [.txBegin, .txAbort]⟩
    | .ok out =>
      let oid := db.orders.length
      let intent : Option Nat := if req.paymentMethod = "stripe" then some oid else none
      let order : Order :=
        ⟨oid, user, out.orderItems, out.total, PaymentStatus.pending, "pending", intent⟩
      let farmers := creationFarmers out.products (out.orderItems.map (fun it => it.product))
      let db' : DB :=
        { products := out.products
          orders := db.orders ++ [order]
          notifications :=
            db.notifications
              ++ farmers.map (fun f => ⟨f, newOrderMsg oid, some ("/orders/" ++ toString oid)⟩)
              ++ [⟨user, orderPlacedMsg oid, some ("/orders/" ++ toString oid)⟩] }
      ⟨200, none, some oid, db',
        farmers.map (fun f => (f, "new_order")),
        [Ev.txBegin]
          ++ req.items.map (fun it => Ev.stockDec it.product it.quantity)
          ++ [Ev.persistOrder oid]
          ++ (if req.paymentMethod = "stripe" then
                [Ev.gatewayCall out.total oid, Ev.persistIntent oid] else [])
          ++ [Ev.txCommit]
          ++ farmers.map Ev.notifWrite ++ farmers.map Ev.rtEmit
          ++ [Ev.notifWrite user]⟩

/-- `true` when the trace performs the payment-gateway network call strictly
before the transaction commit (i.e. inside the open transaction). -/
def callBeforeCommit : List Ev → Bool
  | [] => false
  | Ev.txCommit :: _ => false
  | Ev.gatewayCall _ _ :: _ => true
  | _ :: rest => callBeforeCommit rest

/-! ## Order status coordinator — `GET` / `PUT /api/orders/[orderId]`

Both handlers authorize against the loaded order: the acting user is the
customer when `order.customer._id === user.userId`, and a farmer party when
some populated `item.product.farmer` equals `user.userId` (a `null` populated
product compares as not owned).  `GET` performs no database write. -/

/-- `item.product?.farmer?.toString() === user.userId` over the order's items. -/
def isFarmerInvolved (db : DB) (o : Order) (userId : Nat) : Bool :=
  o.items.any (fun it =>
    match findProduct db.products it.product with
    | some p => p.farmer = userId
    | none => false)

/-- `GET /api/orders/[orderId]` for authenticated `userId`: the HTTP status of
the response.  The handler reads the order and the related payment intent but
writes nothing, so the database is not part of the result. -/
def getOrder (db : DB) (userId : Nat) (oid : Nat) : Nat :=
  match findOrder db oid with
  | none => 404
  | some o =>
    if o.customer ≠ userId ∧ isFarmerInvolved db o userId = false then 403 else 200

/-- Result of `PUT /api/orders/[orderId]`: HTTP status, resulting database,
and real-time events emitted to the buyer's channel. -/
structure PutResult where
  status : Nat
  db : DB
  dispatched : List (Nat × String)
  deriving DecidableEq, Repr

/-- The buyer notification message written when the request carries a
fulfillment status value `st`. -/
def statusUpdateMsg (oid : Nat) (st : String) : String :=
  "Update: Your order #" ++ toString oid ++ " has been marked as '" ++ st ++ "'."

/-- `PUT /api/orders/[orderId]` for authenticated `(userId, role)`, with the
parsed body fields `status` and `paymentStatus` (`none` for an absent or falsy
field).  Mirrors the handler's control flow: missing-fields check, load, the
two-role authorization check, the customer payment-status branch (only
`"paid"` is accepted), the farmer fulfillment-status branch (role must be
`"farmer"`), the `updated` guard, `order.save()`, and finally — keyed on the
request's `status` field being truthy, not on the fulfillment status having
changed — the buyer notification write and the buyer-channel emission. -/
def putOrder (db : DB) (userId : Nat) (role : String) (oid : Nat)
    (statusReq : Option String) (payReq : Option String) : PutResult :=
  if statusReq = none ∧ payReq = none then ⟨400, db, []⟩
  else
    match findOrder db oid with
    | none => ⟨404, db, []⟩
    | some o =>
      let isCustomer := o.customer = userId
      let involved := isFarmerInvolved db o userId
      if ¬isCustomer ∧ involved = false then ⟨403, db, []⟩
      else
        let payStep : Except PutResult (Order × Bool) :=
          match payReq with
          | some ps =>
            if isCustomer then
              if ps = "paid" then .ok ({ o with paymentStatus := PaymentStatus.paid }, true)
              else .error ⟨400, db, []⟩
            else .ok (o, false)
          | none => .ok (o, false)
        match payStep with
        | .error r => r
        | .ok (o1, upd1) =>
          let statusStep : Except PutResult (Order × Bool) :=
            match statusReq with
            | some st =>
              if involved then
                if role ≠ "farmer" then .error ⟨403, db, []⟩
                else .ok ({ o1 with fulfillment := st }, true)
              else .ok (o1, upd1)
            | none => .ok (o1, upd1)
          match statusStep with
          | .error r => r
          | .ok (o2, upd2) =>
            if (upd1 || upd2) = false then ⟨403, db, []⟩
            else
              let db1 : DB := { db with orders := saveOrder db.orders o2 }
              match statusReq with
              | some st =>
                ⟨200,
                 { db1 with
                   notifications :=
                     db1.notifications
                       ++ [⟨o.customer, statusUpdateMsg oid st,
                            some ("/orders/" ++ toString oid)⟩] },
                 [(o.customer, "Your order is now " ++ o2.fulfillment ++ "!")]⟩
              | none => ⟨200, db1, []⟩

/-! ## Basic lemmas about the store operations -/

theorem findProduct_id {ps : List Product} {pid : Nat} {p : Product}
    (h : findProduct ps pid = some p) : p.id = pid := by
  have := List.find?_some h
  simpa using this

theorem findProduct_mem {ps : List Product} {pid : Nat} {p : Product}
    (h : findProduct ps pid = some p) : p ∈ ps :=
  List.mem_of_find?_eq_some h

theorem findProduct_setQuantity (ps : List Product) (i : Nat) (q : Int) (pid : Nat) :
    findProduct (setQuantity ps i q) pid =
      (findProduct ps pid).map (fun p => if p.id = i then { p with quantity := q } else p) := by
  induction ps with
  | nil => rfl
  | cons hd tl ih =>
    have hfid : (if hd.id = i then ({ hd with quantity := q } : Product) else hd).id = hd.id := by
      by_cases hi : hd.id = i <;> simp [hi]
    unfold findProduct setQuantity at ih ⊢
    simp only [List.map_cons]
    by_cases hhd : hd.id = pid
    · rw [List.find?_cons_of_pos _ (by rw [hfid]; simp [hhd]),
        List.find?_cons_of_pos _ (by simp [hhd])]
      simp
    · rw [List.find?_cons_of_neg _ (by rw [hfid]; simp [hhd]),
        List.find?_cons_of_neg _ (by simp [hhd])]
      exact ih

theorem findProduct_isSome_setQuantity (ps : List Product) (i : Nat) (q : Int) (pid : Nat) :
    (findProduct (setQuantity ps i q) pid).isSome = (findProduct ps pid).isSome := by
  rw [findProduct_setQuantity]
  cases findProduct ps pid <;> simp

theorem pQty_setQuantity_self {ps : List Product} {pid : Nat} {p : Product}
    (h : findProduct ps pid = some p) (q : Int) :
    pQty (setQuantity ps p.id q) pid = q := by
  have hid := findProduct_id h
  unfold pQty
  rw [findProduct_setQuantity, h]
  simp [hid]

theorem pQty_setQuantity_other {ps : List Product} {pid i : Nat} (hne : pid ≠ i) (q : Int) :
    pQty (setQuantity ps i q) pid = pQty ps pid := by
  unfold pQty
  rw [findProduct_setQuantity]
  cases hf : findProduct ps pid with
  | none => simp
  | some p =>
    have hid := findProduct_id hf
    have : ¬p.id = i := by rw [hid]; exact hne
    simp [this]

theorem setQuantity_name_mem {ps : List Product} {p' : Product} {i : Nat} {q : Int}
    (h : p' ∈ setQuantity ps i q) : ∃ p ∈ ps, p.name = p'.name := by
  unfold setQuantity at h
  obtain ⟨p, hp, heq⟩ := List.mem_map.mp h
  refine ⟨p, hp, ?_⟩
  by_cases hi : p.id = i <;> simp [hi] at heq <;> rw [← heq]

theorem findOrder_id {db : DB} {oid : Nat} {o : Order}
    (h : findOrder db oid = some o) : o.id = oid := by
  have := List.find?_some h
  simpa using this

theorem find?_saveOrder {os : List Order} {oid : Nat} {o o' : Order}
    (h : os.find? (fun x => x.id = oid) = some o) (hid : o'.id = o.id) :
    (saveOrder os o').find? (fun x => x.id = oid) = some o' := by
  have hoid : o.id = oid := by simpa using List.find?_some h
  induction os with
  | nil => simp [List.find?] at h
  | cons hd tl ih =>
    unfold saveOrder
    simp only [List.map_cons]
    by_cases hhd : hd.id = oid
    · have hrep : (if hd.id = o'.id then o' else hd) = o' := by
        rw [if_pos (by rw [hhd, hid, hoid])]
      rw [hrep]
      exact List.find?_cons_of_pos _ (by simp [hid, hoid])
    · have hrep : (if hd.id = o'.id then o' else hd) = hd := by
        rw [if_neg (by rw [hid, hoid]; exact hhd)]
      rw [hrep, List.find?_cons_of_neg _ (by simp [hhd])]
      rw [List.find?_cons_of_neg _ (by simp [hhd])] at h
      exact ih h

theorem addDistinct_nodup {l : List Nat} (h : l.Nodup) (x : Nat) :
    (addDistinct l x).Nodup := by
  unfold addDistinct
  by_cases hx : x ∈ l
  · simpa [hx]
  · simp only [if_neg hx]
    simpa [List.nodup_append, hx] using h

/-! ## Lemmas about the webhook stock-decrement and dispatch loops -/

theorem decLoop_ok {items : List OrderItem} {ps : List Product} {fs : List Nat}
    (h : ∀ it ∈ items, (findProduct ps it.product).isSome = true) :
    (decLoop items ps fs).ok = true := by
  induction items generalizing ps fs with
  | nil => rfl
  | cons it rest ih =>
    have hit := h it (List.mem_cons_self it rest)
    cases hf : findProduct ps it.product with
    | none => rw [hf] at hit; simp at hit
    | some p =>
      unfold decLoop
      rw [hf]
      exact ih (fun it' hit' => by
        rw [findProduct_isSome_setQuantity]
        exact h it' (List.mem_cons_of_mem it hit'))

theorem decLoop_pQty {items : List OrderItem} {ps : List Product} {fs : List Nat}
    (h : ∀ it ∈ items, (findProduct ps it.product).isSome = true) (pid : Nat) :
    pQty (decLoop items ps fs).products pid = pQty ps pid - orderedQty items pid := by
  induction items generalizing ps fs with
  | nil => simp [decLoop, orderedQty]
  | cons it rest ih =>
    have hit := h it (List.mem_cons_self it rest)
    cases hf : findProduct ps it.product with
    | none => rw [hf] at hit; simp at hit
    | some p =>
      unfold decLoop
      rw [hf]
      have hrest : ∀ it' ∈ rest,
          (findProduct (setQuantity ps p.id (p.quantity - it.quantity)) it'.product).isSome
            = true := fun it' hit' => by
        rw [findProduct_isSome_setQuantity]
        exact h it' (List.mem_cons_of_mem it hit')
      rw [ih hrest]
      have hid := findProduct_id hf
      unfold orderedQty
      simp only [List.foldr_cons]
      by_cases hpid : it.product = pid
      · have hfp : findProduct ps pid = some p := by rw [← hpid]; exact hf
        have h1 : pQty (setQuantity ps p.id (p.quantity - it.quantity)) pid
            = p.quantity - it.quantity := pQty_setQuantity_self hfp _
        have h2 : pQty ps pid = p.quantity := by unfold pQty; rw [hfp]
        rw [h1, h2, if_pos hpid]
        ring
      · have h1 : pQty (setQuantity ps p.id (p.quantity - it.quantity)) pid = pQty ps pid :=
          pQty_setQuantity_other (by rw [hid]; exact fun hh => hpid hh.symm) _
        rw [h1, if_neg hpid]

theorem decLoop_farmers_nodup {items : List OrderItem} {ps : List Product} {fs : List Nat}
    (h : fs.Nodup) : (decLoop items ps fs).farmers.Nodup := by
  induction items generalizing ps fs with
  | nil => exact h
  | cons it rest ih =>
    unfold decLoop
    cases findProduct ps it.product with
    | none => exact h
    | some p => exact ih (addDistinct_nodup h p.farmer)

theorem dispatchAll_all_ok {fs : List Nat} {msg : String} {okf : Nat → Bool}
    (h : ∀ f, okf f = true) :
    dispatchAll fs msg okf = (fs.map (fun f => (f, msg)), true) := by
  induction fs with
  | nil => rfl
  | cons f rest ih =>
    unfold dispatchAll
    rw [if_pos (h f), ih]
    rfl

theorem dispatchAll_events (fs : List Nat) (msg : String) (okf : Nat → Bool) :
    (dispatchAll fs msg okf).1 = (fs.takeWhile okf).map (fun f => (f, msg)) := by
  induction fs with
  | nil => rfl
  | cons f rest ih =>
    unfold dispatchAll
    cases hok : okf f with
    | true => simp [List.takeWhile_cons, hok, ih]
    | false => simp [List.takeWhile_cons, hok]

theorem dispatchAll_flag (fs : List Nat) (msg : String) (okf : Nat → Bool) :
    (dispatchAll fs msg okf).2 = fs.all okf := by
  induction fs with
  | nil => rfl
  | cons f rest ih =>
    unfold dispatchAll
    cases hok : okf f with
    | true => simp [hok, ih]
    | false => simp [hok]

/-! ## Lemmas about the order-creation item loop -/

/-- Total quantity of a given product requested across the input items. -/
def reqQty (items : List ReqItem) (pid : Nat) : Int :=
  items.foldr (fun it acc => if it.product = pid then it.quantity + acc else acc) 0

theorem processItems_isSome {items : List ReqItem} {ps : List Product} {out : ItemsOut}
    (h : processItems items ps = .ok out) (pid : Nat) :
    (findProduct out.products pid).isSome = (findProduct ps pid).isSome := by
  induction items generalizing ps out with
  | nil =>
    unfold processItems at h
    cases h
    rfl
  | cons it rest ih =>
    unfold processItems at h
    split at h
    next hf => cases h
    next p hf =>
      split at h
      next hlt => cases h
      next hlt =>
        split at h
        next e hrec => cases h
        next out2 hrec =>
          cases h
          rw [ih hrec, findProduct_isSome_setQuantity]

theorem processItems_pQty {items : List ReqItem} {ps : List Product} {out : ItemsOut}
    (h : processItems items ps = .ok out) (pid : Nat) :
    pQty out.products pid = pQty ps pid - reqQty items pid := by
  induction items generalizing ps out with
  | nil =>
    unfold processItems at h
    cases h
    simp [reqQty]
  | cons it rest ih =>
    unfold processItems at h
    split at h
    next hf => cases h
    next p hf =>
      split at h
      next hlt => cases h
      next hlt =>
        split at h
        next e hrec => cases h
        next out2 hrec =>
          cases h
          show pQty out2.products pid = pQty ps pid - reqQty (it :: rest) pid
          rw [ih hrec]
          have hid := findProduct_id hf
          unfold reqQty
          simp only [List.foldr_cons]
          by_cases hpid : it.product = pid
          · have hfp : findProduct ps pid = some p := by rw [← hpid]; exact hf
            have h1 : pQty (setQuantity ps p.id (p.quantity - it.quantity)) pid
                = p.quantity - it.quantity := pQty_setQuantity_self hfp _
            have h2 : pQty ps pid = p.quantity := by unfold pQty; rw [hfp]
            rw [h1, h2, if_pos hpid]
            ring
          · have h1 : pQty (setQuantity ps p.id (p.quantity - it.quantity)) pid = pQty ps pid :=
              pQty_setQuantity_other (by rw [hid]; exact fun hh => hpid hh.symm) _
            rw [h1, if_neg hpid]

theorem processItems_orderedQty {items : List ReqItem} {ps : List Product} {out : ItemsOut}
    (h : processItems items ps = .ok out) (pid : Nat) :
    orderedQty out.orderItems pid = reqQty items pid := by
  induction items generalizing ps out with
  | nil =>
    unfold processItems at h
    cases h
    rfl
  | cons it rest ih =>
    unfold processItems at h
    split at h
    next hf => cases h
    next p hf =>
      split at h
      next hlt => cases h
      next hlt =>
        split at h
        next e hrec => cases h
        next out2 hrec =>
          cases h
          have hid := findProduct_id hf
          show (if p.id = pid then it.quantity + orderedQty out2.orderItems pid
              else orderedQty out2.orderItems pid) = reqQty (it :: rest) pid
          rw [ih hrec, hid]
          rfl

theorem processItems_products_present {items : List ReqItem} {ps : List Product} {out : ItemsOut}
    (h : processItems items ps = .ok out) :
    ∀ oi ∈ out.orderItems, (findProduct out.products oi.product).isSome = true := by
  induction items generalizing ps out with
  | nil =>
    unfold processItems at h
    cases h
    intro oi hoi
    cases hoi
  | cons it rest ih =>
    unfold processItems at h
    split at h
    next hf => cases h
    next p hf =>
      split at h
      next hlt => cases h
      next hlt =>
        split at h
        next e hrec => cases h
        next out2 hrec =>
          cases h
          intro oi hoi
          rcases List.mem_cons.mp hoi with hhd | htl
          · subst hhd
            have hid := findProduct_id hf
            show (findProduct out2.products p.id).isSome = true
            rw [processItems_isSome hrec, findProduct_isSome_setQuantity, hid, hf]
            rfl
          · exact ih hrec oi htl

theorem pQty_setQuantity_le {ps : List Product} {i : Nat} {p : Product}
    (hf : findProduct ps i = some p) {d : Int} (hd : 0 ≤ d) (pid : Nat) :
    pQty (setQuantity ps p.id (p.quantity - d)) pid ≤ pQty ps pid := by
  have hid := findProduct_id hf
  by_cases hpid : pid = p.id
  · have hfp : findProduct ps pid = some p := by rw [hpid, hid]; exact hf
    rw [show pid = p.id from hpid] at hfp ⊢
    rw [pQty_setQuantity_self hfp]
    have : pQty ps p.id = p.quantity := by unfold pQty; rw [hfp]
    rw [this]
    omega
  · rw [pQty_setQuantity_other hpid]

theorem processItems_notFound_fails {items : List ReqItem} {ps : List Product} {it : ReqItem}
    (hmem : it ∈ items) (habs : findProduct ps it.product = none) :
    ∃ e, processItems items ps = .error e := by
  induction items generalizing ps with
  | nil => cases hmem
  | cons it0 rest ih =>
    cases hf : findProduct ps it0.product with
    | none =>
      refine ⟨.productNotFound it0.product, ?_⟩
      unfold processItems
      simp only [hf]
    | some p =>
      by_cases hlt : p.quantity < it0.quantity
      · refine ⟨.insufficientStock p.name, ?_⟩
        unfold processItems
        simp only [hf]
        rw [if_pos hlt]
      · rcases List.mem_cons.mp hmem with hhd | htl
        · subst hhd
          rw [habs] at hf
          cases hf
        · have habs2 : findProduct (setQuantity ps p.id (p.quantity - it0.quantity))
              it.product = none := by
            have := findProduct_isSome_setQuantity ps p.id (p.quantity - it0.quantity) it.product
            rw [habs] at this
            simpa using this
          obtain ⟨e, he⟩ := ih htl habs2
          refine ⟨e, ?_⟩
          unfold processItems
          simp only [hf]
          rw [if_neg hlt, he]

theorem processItems_insufficient_fails {items : List ReqItem} {ps : List Product} {it : ReqItem}
    (hq : ∀ it2 ∈ items, 0 ≤ it2.quantity) (hmem : it ∈ items)
    (hpres : (findProduct ps it.product).isSome = true)
    (hlow : pQty ps it.product < it.quantity) :
    ∃ e, processItems items ps = .error e := by
  induction items generalizing ps with
  | nil => cases hmem
  | cons it0 rest ih =>
    cases hf : findProduct ps it0.product with
    | none =>
      refine ⟨.productNotFound it0.product, ?_⟩
      unfold processItems
      simp only [hf]
    | some p =>
      by_cases hlt : p.quantity < it0.quantity
      · refine ⟨.insufficientStock p.name, ?_⟩
        unfold processItems
        simp only [hf]
        rw [if_pos hlt]
      · rcases List.mem_cons.mp hmem with hhd | htl
        · subst hhd
          cases hfit : findProduct ps it.product with
          | none => rw [hfit] at hpres; simp at hpres
          | some pit =>
            rw [hfit] at hf
            cases hf
            have hq2 : pQty ps it.product = p.quantity := by unfold pQty; rw [hfit]
            rw [hq2] at hlow
            omega
        · have hpres2 : (findProduct (setQuantity ps p.id (p.quantity - it0.quantity))
              it.product).isSome = true := by
            rw [findProduct_isSome_setQuantity]
            exact hpres
          have hmono := pQty_setQuantity_le hf
            (hq it0 (List.mem_cons_self it0 rest)) it.product
          obtain ⟨e, he⟩ := ih (fun it2 h2 => hq it2 (List.mem_cons_of_mem it0 h2)) htl hpres2
            (by omega)
          refine ⟨e, ?_⟩
          unfold processItems
          simp only [hf]
          rw [if_neg hlt, he]

theorem processItems_notFound_names {items : List ReqItem} {ps : List Product} {pid : Nat}
    (h : processItems items ps = .error (.productNotFound pid)) :
    ∃ it ∈ items, it.product = pid := by
  induction items generalizing ps with
  | nil => unfold processItems at h; cases h
  | cons it0 rest ih =>
    unfold processItems at h
    split at h
    next hf =>
      cases h
      exact ⟨it0, List.mem_cons_self it0 rest, rfl⟩
    next p hf =>
      split at h
      next hlt => cases h
      next hlt =>
        split at h
        next e hrec =>
          cases h
          obtain ⟨it, hmem, hp⟩ := ih hrec
          exact ⟨it, List.mem_cons_of_mem it0 hmem, hp⟩
        next out2 hrec => cases h

theorem processItems_insufficient_names {items : List ReqItem} {ps : List Product} {n : String}
    (h : processItems items ps = .error (.insufficientStock n)) :
    ∃ p ∈ ps, p.name = n := by
  induction items generalizing ps with
  | nil => unfold processItems at h; cases h
  | cons it0 rest ih =>
    unfold processItems at h
    split at h
    next hf => cases h
    next p hf =>
      split at h
      next hlt =>
        cases h
        exact ⟨p, findProduct_mem hf, rfl⟩
      next hlt =>
        split at h
        next e hrec =>
          cases h
          obtain ⟨p2, hmem, hn⟩ := ih hrec
          obtain ⟨p3, hp3, hname⟩ := setQuantity_name_mem hmem
          exact ⟨p3, hp3, by rw [hname, hn]⟩
        next out2 hrec => cases h

/-! ## Characterizations of the webhook handler -/

theorem handleWebhook_paid {db : DB} {oid : Nat} {o : Order} (okf : Nat → Bool)
    (ho : findOrder db oid = some o) (hp : o.paymentStatus = PaymentStatus.paid) :
    handleWebhook db oid okf = ⟨200, db, []⟩ := by
  unfold handleWebhook
  simp [ho, hp]

theorem handleWebhook_pending {db : DB} {oid : Nat} {o : Order} (okf : Nat → Bool)
    (ho : findOrder db oid = some o) (hp : o.paymentStatus = PaymentStatus.pending)
    (hok : (decLoop o.items db.products []).ok = true) :
    handleWebhook db oid okf =
      if (dispatchAll (decLoop o.items db.products []).farmers (saleMsg oid) okf).2 then
        ⟨200, ⟨(decLoop o.items db.products []).products,
               saveOrder db.orders { o with paymentStatus := PaymentStatus.paid },
               db.notifications⟩,
         (dispatchAll (decLoop o.items db.products []).farmers (saleMsg oid) okf).1⟩
      else
        ⟨400, ⟨(decLoop o.items db.products []).products,
               saveOrder db.orders { o with paymentStatus := PaymentStatus.paid },
               db.notifications⟩,
         (dispatchAll (decLoop o.items db.products []).farmers (saleMsg oid) okf).1⟩ := by
  unfold handleWebhook
  simp only [ho, hp, hok]
  rfl

/-! ## Concrete scenario data used to instantiate the theorems -/

/-- A farmer-7 product with stock 5, used in the webhook scenarios. -/
def hookProduct : Product := ⟨1, "Tomatoes", 7, 10, 5⟩

/-- A pending order of 2 units of `hookProduct` by customer 5. -/
def hookOrder : Order := ⟨0, 5, [⟨1, 2, 10⟩], 20, PaymentStatus.pending, "pending", some 0⟩

/-- Database holding `hookProduct` and the pending `hookOrder`. -/
def hookDB : DB := ⟨[hookProduct], [hookOrder], []⟩

/-! ## Claim C1 -/

/-- **C1.** For every order whose payment status is pending, delivering the
same valid payment-success callback twice has the same effect as delivering it
once: the first delivery succeeds and marks the order paid, each ordered
product's quantity is decremented by the ordered quantity exactly once, exactly
one "new sale" dispatch per distinct seller is produced, and the second
delivery changes nothing, dispatches nothing, and is acknowledged with a
no-op 200. -/
theorem webhook_payment_success_idempotent
    (db : DB) (oid : Nat) (okf okf2 : Nat → Bool) (o : Order)
    (ho : findOrder db oid = some o)
    (hp : o.paymentStatus = PaymentStatus.pending)
    (hprod : ∀ it ∈ o.items, (findProduct db.products it.product).isSome = true)
    (hok : ∀ f, okf f = true) :
    (handleWebhook db oid okf).status = 200 ∧
    (∃ o2, findOrder (handleWebhook db oid okf).db oid = some o2 ∧
        o2.paymentStatus = PaymentStatus.paid) ∧
    (∀ pid, qtyOf (handleWebhook db oid okf).db pid = qtyOf db pid - orderedQty o.items pid) ∧
    (handleWebhook db oid okf).dispatched
      = (webhookFarmers o.items db.products).map (fun f => (f, saleMsg oid)) ∧
    (webhookFarmers o.items db.products).Nodup ∧
    handleWebhook (handleWebhook db oid okf).db oid okf2
      = ⟨200, (handleWebhook db oid okf).db, []⟩ := by
  have hdok := @decLoop_ok o.items db.products [] hprod
  have hw := handleWebhook_pending okf ho hp hdok
  have hdisp := @dispatchAll_all_ok (decLoop o.items db.products []).farmers (saleMsg oid) okf hok
  rw [hdisp] at hw
  simp only at hw
  rw [if_pos trivial] at hw
  have hfind2 : findOrder (handleWebhook db oid okf).db oid
      = some { o with paymentStatus := PaymentStatus.paid } := by
    rw [hw]
    exact find?_saveOrder ho rfl
  refine ⟨by rw [hw], ⟨{ o with paymentStatus := PaymentStatus.paid }, hfind2, rfl⟩,
    ?_, ?_, ?_, ?_⟩
  · intro pid
    rw [hw]
    unfold qtyOf
    exact decLoop_pQty hprod pid
  · rw [hw]
    rfl
  · exact decLoop_farmers_nodup List.nodup_nil
  · rw [handleWebhook_paid okf2 hfind2 rfl]

/-- Witness for C1 at the concrete `hookDB` scenario. -/
theorem webhook_payment_success_idempotent_witness :
    (handleWebhook hookDB 0 (fun _ => true)).status = 200 ∧
    (∃ o2, findOrder (handleWebhook hookDB 0 (fun _ => true)).db 0 = some o2 ∧
        o2.paymentStatus = PaymentStatus.paid) ∧
    (∀ pid, qtyOf (handleWebhook hookDB 0 (fun _ => true)).db pid
      = qtyOf hookDB pid - orderedQty hookOrder.items pid) ∧
    (handleWebhook hookDB 0 (fun _ => true)).dispatched
      = (webhookFarmers hookOrder.items hookDB.products).map (fun f => (f, saleMsg 0)) ∧
    (webhookFarmers hookOrder.items hookDB.products).Nodup ∧
    handleWebhook (handleWebhook hookDB 0 (fun _ => true)).db 0 (fun _ => false)
      = ⟨200, (handleWebhook hookDB 0 (fun _ => true)).db, []⟩ :=
  webhook_payment_success_idempotent hookDB 0 (fun _ => true) (fun _ => false) hookOrder
    rfl rfl (by decide) (fun _ => rfl)

/-! ## Claim C10 -/

/-- **C10.** If a real-time dispatch to some seller channel fails after the
order has been saved as paid and stock decremented, the webhook handler
reports HTTP 400 although those state changes remain committed; the dispatches
actually performed are exactly the prefix before the first failing seller, and
any redelivery of the same event takes the already-paid no-op branch: it
performs no dispatch at all and acknowledges 200 with no state change. -/
theorem webhook_dispatch_failure_permanent
    (db : DB) (oid : Nat) (okf okf2 : Nat → Bool) (o : Order)
    (ho : findOrder db oid = some o)
    (hp : o.paymentStatus = PaymentStatus.pending)
    (hprod : ∀ it ∈ o.items, (findProduct db.products it.product).isSome = true)
    (hfail : (webhookFarmers o.items db.products).all okf = false) :
    (handleWebhook db oid okf).status = 400 ∧
    (∃ o2, findOrder (handleWebhook db oid okf).db oid = some o2 ∧
        o2.paymentStatus = PaymentStatus.paid) ∧
    (∀ pid, qtyOf (handleWebhook db oid okf).db pid = qtyOf db pid - orderedQty o.items pid) ∧
    (handleWebhook db oid okf).dispatched
      = ((webhookFarmers o.items db.products).takeWhile okf).map (fun f => (f, saleMsg oid)) ∧
    handleWebhook (handleWebhook db oid okf).db oid okf2
      = ⟨200, (handleWebhook db oid okf).db, []⟩ := by
  have hdok := @decLoop_ok o.items db.products [] hprod
  have hw := handleWebhook_pending okf ho hp hdok
  have hflag := dispatchAll_flag (decLoop o.items db.products []).farmers (saleMsg oid) okf
  rw [show ((decLoop o.items db.products []).farmers.all okf) = false from hfail] at hflag
  have hcond : ¬((dispatchAll (decLoop o.items db.products []).farmers
      (saleMsg oid) okf).2 = true) := by
    rw [hflag]
    simp
  rw [if_neg hcond] at hw
  have hfind2 : findOrder (handleWebhook db oid okf).db oid
      = some { o with paymentStatus := PaymentStatus.paid } := by
    rw [hw]
    exact find?_saveOrder ho rfl
  refine ⟨by rw [hw], ⟨{ o with paymentStatus := PaymentStatus.paid }, hfind2, rfl⟩,
    ?_, ?_, ?_⟩
  · intro pid
    rw [hw]
    unfold qtyOf
    exact decLoop_pQty hprod pid
  · rw [hw]
    exact dispatchAll_events (decLoop o.items db.products []).farmers (saleMsg oid) okf
  · rw [handleWebhook_paid okf2 hfind2 rfl]

/-- Witness for C10: at `hookDB`, a dispatch oracle that always fails. -/
theorem webhook_dispatch_failure_permanent_witness :
    (handleWebhook hookDB 0 (fun _ => false)).status = 400 ∧
    (∃ o2, findOrder (handleWebhook hookDB 0 (fun _ => false)).db 0 = some o2 ∧
        o2.paymentStatus = PaymentStatus.paid) ∧
    (∀ pid, qtyOf (handleWebhook hookDB 0 (fun _ => false)).db pid
      = qtyOf hookDB pid - orderedQty hookOrder.items pid) ∧
    (handleWebhook hookDB 0 (fun _ => false)).dispatched
      = ((webhookFarmers hookOrder.items hookDB.products).takeWhile (fun _ => false)).map
          (fun f => (f, saleMsg 0)) ∧
    handleWebhook (handleWebhook hookDB 0 (fun _ => false)).db 0 (fun _ => true)
      = ⟨200, (handleWebhook hookDB 0 (fun _ => false)).db, []⟩ :=
  webhook_dispatch_failure_permanent hookDB 0 (fun _ => false) (fun _ => true) hookOrder
    rfl rfl (by decide) (by decide)

/-! ## Claim C6 -/

/-- **C6 counterexample.** Processing a payment-success callback for the
pending `hookOrder` (distinct seller set `[7]`) dispatches the real-time
"new sale" event to seller 7 but writes no record at all to the Notification
ledger: the ledger stays empty, so no "message plus link" notification per
seller is durably recorded, contrary to the claim. -/
theorem webhook_writes_no_ledger_record_cx :
    webhookFarmers hookOrder.items hookDB.products = [7] ∧
    (handleWebhook hookDB 0 (fun _ => true)).status = 200 ∧
    (handleWebhook hookDB 0 (fun _ => true)).dispatched = [(7, saleMsg 0)] ∧
    (handleWebhook hookDB 0 (fun _ => true)).db.notifications = [] :=
  ⟨rfl, rfl, rfl, rfl⟩

/-- **C6 amended.** When a payment-success callback is processed for an order
not yet marked paid, the handler performs only the real-time dispatch to each
distinct seller's channel; it writes nothing to the Notification ledger. -/
theorem webhook_dispatch_without_ledger_write
    (db : DB) (oid : Nat) (okf : Nat → Bool) (o : Order)
    (ho : findOrder db oid = some o)
    (hp : o.paymentStatus = PaymentStatus.pending)
    (hprod : ∀ it ∈ o.items, (findProduct db.products it.product).isSome = true)
    (hok : ∀ f, okf f = true) :
    (handleWebhook db oid okf).db.notifications = db.notifications ∧
    (handleWebhook db oid okf).dispatched
      = (webhookFarmers o.items db.products).map (fun f => (f, saleMsg oid)) := by
  have hdok := @decLoop_ok o.items db.products [] hprod
  have hw := handleWebhook_pending okf ho hp hdok
  have hdisp := @dispatchAll_all_ok (decLoop o.items db.products []).farmers (saleMsg oid) okf hok
  rw [hdisp] at hw
  simp only at hw
  rw [if_pos trivial] at hw
  exact ⟨by rw [hw], by rw [hw]; rfl⟩

/-- Witness for the amended C6 at the concrete `hookDB` scenario. -/
theorem webhook_dispatch_without_ledger_write_witness :
    (handleWebhook hookDB 0 (fun _ => true)).db.notifications = hookDB.notifications ∧
    (handleWebhook hookDB 0 (fun _ => true)).dispatched
      = (webhookFarmers hookOrder.items hookDB.products).map (fun f => (f, saleMsg 0)) :=
  webhook_dispatch_without_ledger_write hookDB 0 (fun _ => true) hookOrder
    rfl rfl (by decide) (fun _ => rfl)

/-! ## Characterizations of the order-creation handler -/

theorem createOrder_err {user : Nat} {req : CreateReq} {db : DB} {e : ItemErr}
    (hne : req.items ≠ []) (hs : req.shippingAddress ≠ none)
    (hp : processItems req.items db.products = .error e) :
    createOrder user req db = ⟨400, some e.msg, none, db, [], [.txBegin, .txAbort]⟩ := by
  unfold createOrder
  rw [if_neg hne, if_neg hs]
  simp only [hp]

theorem createOrder_ok {user : Nat} {req : CreateReq} {db : DB} {out : ItemsOut}
    (hne : req.items ≠ []) (hs : req.shippingAddress ≠ none)
    (hp : processItems req.items db.products = .ok out) :
    createOrder user req db =
      ⟨200, none, some db.orders.length,
       ⟨out.products,
        db.orders ++ [⟨db.orders.length, user, out.orderItems, out.total,
          PaymentStatus.pending, "pending",
          if req.paymentMethod = "stripe" then some db.orders.length else none⟩],
        db.notifications
          ++ (creationFarmers out.products (out.orderItems.map (fun it => it.product))).map
              (fun f => ⟨f, newOrderMsg db.orders.length,
                some ("/orders/" ++ toString db.orders.length)⟩)
          ++ [⟨user, orderPlacedMsg db.orders.length,
               some ("/orders/" ++ toString db.orders.length)⟩]⟩,
       (creationFarmers out.products (out.orderItems.map (fun it => it.product))).map
         (fun f => (f, "new_order")),
       [Ev.txBegin]
         ++ req.items.map (fun it => Ev.stockDec it.product it.quantity)
         ++ [Ev.persistOrder db.orders.length]
         ++ (if req.paymentMethod = "stripe" then
               [Ev.gatewayCall out.total db.orders.length,
                Ev.persistIntent db.orders.length] else [])
         ++ [Ev.txCommit]
         ++ (creationFarmers out.products (out.orderItems.map (fun it => it.product))).map
              Ev.notifWrite
         ++ (creationFarmers out.products (out.orderItems.map (fun it => it.product))).map
              Ev.rtEmit
         ++ [Ev.notifWrite user]⟩ := by
  unfold createOrder
  rw [if_neg hne, if_neg hs]
  simp only [hp]

/-! ## Claim C2 -/

/-- **C2.** Order creation is all-or-nothing.  Any item-processing error makes
the request fail with HTTP 400 carrying the thrown message and leaves the
whole database (stock, orders, notification ledger) unchanged; a
`productNotFound` failure names a requested product id and an
`insufficientStock` failure names an existing product; the creation succeeds
(HTTP 200) iff the item loop succeeds; an item whose product is absent, or
(for non-negatively quantified requests) whose requested quantity exceeds the
available quantity, forces a 400 failure with the database unchanged. -/
theorem create_order_all_or_nothing
    (db : DB) (user : Nat) (req : CreateReq)
    (hne : req.items ≠ []) (hs : req.shippingAddress ≠ none) :
    (∀ e, processItems req.items db.products = .error e →
        (createOrder user req db).status = 400 ∧
        (createOrder user req db).error = some e.msg ∧
        (createOrder user req db).db = db) ∧
    (∀ pid, processItems req.items db.products = .error (.productNotFound pid) →
        (createOrder user req db).error = some ("Product " ++ toString pid ++ " not found") ∧
        ∃ it ∈ req.items, it.product = pid) ∧
    (∀ n, processItems req.items db.products = .error (.insufficientStock n) →
        (createOrder user req db).error = some ("Insufficient stock for " ++ n) ∧
        ∃ p ∈ db.products, p.name = n) ∧
    ((createOrder user req db).status = 200 ↔
        ∃ out, processItems req.items db.products = .ok out) ∧
    (∀ it ∈ req.items, findProduct db.products it.product = none →
        (createOrder user req db).status = 400 ∧ (createOrder user req db).db = db) ∧
    ((∀ it ∈ req.items, 0 ≤ it.quantity) →
      ∀ it ∈ req.items, (findProduct db.products it.product).isSome = true →
        pQty db.products it.product < it.quantity →
        (createOrder user req db).status = 400 ∧ (createOrder user req db).db = db) := by
  refine ⟨?_, ?_, ?_, ?_, ?_, ?_⟩
  · intro e he
    rw [createOrder_err hne hs he]
    exact ⟨rfl, rfl, rfl⟩
  · intro pid he
    rw [createOrder_err hne hs he]
    exact ⟨rfl, processItems_notFound_names he⟩
  · intro n he
    rw [createOrder_err hne hs he]
    exact ⟨rfl, processItems_insufficient_names he⟩
  · constructor
    · intro h200
      cases hp : processItems req.items db.products with
      | error e =>
        rw [createOrder_err hne hs hp] at h200
        simp at h200
      | ok out => exact ⟨out, rfl⟩
    · rintro ⟨out, hp⟩
      rw [createOrder_ok hne hs hp]
  · intro it hit habs
    obtain ⟨e, he⟩ := processItems_notFound_fails hit habs
    rw [createOrder_err hne hs he]
    exact ⟨rfl, rfl⟩
  · intro hq it hit hpres hlow
    obtain ⟨e, he⟩ := processItems_insufficient_fails hq hit hpres hlow
    rw [createOrder_err hne hs he]
    exact ⟨rfl, rfl⟩

/-- A one-product catalog with a single unit in stock, owned by farmer 7. -/
def demoDB : DB := ⟨[⟨1, "Apples", 7, 10, 1⟩], [], []⟩

/-- A valid one-item Stripe order request for the unit in stock. -/
def demoReq : CreateReq := ⟨[⟨1, 1⟩], some "Farm Road 1", "stripe"⟩

/-- A request for 3 units when only 1 is in stock. -/
def lowReq : CreateReq := ⟨[⟨1, 3⟩], some "Farm Road 1", "cod"⟩

/-- Witness for C2: the insufficient-stock scenario of the spec (3 units
requested, stock 1) fails with 400, the message names the product, and the
database is unchanged. -/
theorem create_order_all_or_nothing_witness :
    (createOrder 5 lowReq demoDB).status = 400 ∧
    (createOrder 5 lowReq demoDB).error
      = some (ItemErr.insufficientStock "Apples").msg ∧
    (createOrder 5 lowReq demoDB).db = demoDB :=
  (create_order_all_or_nothing demoDB 5 lowReq (by decide) (by decide)).1
    (ItemErr.insufficientStock "Apples") rfl

/-! ## Claim C3 -/

/-- **C3 (code bug).** The non-negativity invariant fails: starting from
stock 1, a successful Stripe order of 1 unit reserves the unit (stock 0), and
the first payment-success callback decrements the same item again with an
unguarded `$inc`, leaving the product's available quantity at `-1`. -/
theorem stock_goes_negative_after_paid_webhook :
    qtyOf demoDB 1 = 1 ∧
    (createOrder 5 demoReq demoDB).status = 200 ∧
    qtyOf (createOrder 5 demoReq demoDB).db 1 = 0 ∧
    (handleWebhook (createOrder 5 demoReq demoDB).db 0 (fun _ => true)).status = 200 ∧
    qtyOf (handleWebhook (createOrder 5 demoReq demoDB).db 0 (fun _ => true)).db 1 = -1 :=
  ⟨rfl, rfl, rfl, rfl, rfl⟩

/-! ## Claim C4 -/

theorem find?_append_none {l1 l2 : List Order} {p : Order → Bool}
    (h : l1.find? p = none) : (l1 ++ l2).find? p = l2.find? p := by
  induction l1 with
  | nil => rfl
  | cons hd tl ih =>
    by_cases hp : p hd = true
    · rw [List.find?_cons_of_pos _ hp] at h
      cases h
    · rw [List.find?_cons_of_neg _ hp] at h
      rw [List.cons_append, List.find?_cons_of_neg _ hp]
      exact ih h

/-- **C4.** For an order paid through the gateway, stock is decremented once
at creation (reservation) and once more when the first payment-success
callback is processed: after both, every product's available quantity is the
initial quantity minus twice the requested quantity. -/
theorem create_then_webhook_double_decrement
    (db : DB) (user : Nat) (req : CreateReq) (okf : Nat → Bool)
    (h200 : (createOrder user req db).status = 200)
    (hfresh : findOrder db db.orders.length = none)
    (hok : ∀ f, okf f = true) :
    (createOrder user req db).orderId = some db.orders.length ∧
    (∀ pid, qtyOf (createOrder user req db).db pid = qtyOf db pid - reqQty req.items pid) ∧
    (handleWebhook (createOrder user req db).db db.orders.length okf).status = 200 ∧
    ∀ pid, qtyOf (handleWebhook (createOrder user req db).db db.orders.length okf).db pid
      = qtyOf db pid - 2 * reqQty req.items pid := by
  by_cases hne : req.items = []
  · rw [show createOrder user req db
        = ⟨400, some "Order must contain at least one item", none, db, [],
           [.txBegin, .txAbort]⟩ from by unfold createOrder; rw [if_pos hne]] at h200
    simp at h200
  by_cases hs : req.shippingAddress = none
  · rw [show createOrder user req db
        = ⟨400, some "Shipping address is required", none, db, [],
           [.txBegin, .txAbort]⟩ from by
          unfold createOrder; rw [if_neg hne, if_pos hs]] at h200
    simp at h200
  cases hp : processItems req.items db.products with
  | error e =>
    rw [createOrder_err hne hs hp] at h200
    simp at h200
  | ok out =>
    have hco := @createOrder_ok user req db out hne hs hp
    set oid := db.orders.length with hoid
    set order : Order :=
      ⟨oid, user, out.orderItems, out.total, PaymentStatus.pending, "pending",
       if req.paymentMethod = "stripe" then some oid else none⟩ with horder
    have hfind : findOrder (createOrder user req db).db oid = some order := by
      rw [hco]
      unfold findOrder
      have h1 : db.orders.find? (fun o => o.id = oid) = none := hfresh
      rw [find?_append_none h1]
      simp [order]
    have hpres : ∀ it ∈ order.items,
        (findProduct (createOrder user req db).db.products it.product).isSome = true := by
      intro it hit
      rw [hco]
      exact processItems_products_present hp it hit
    have hdok := @decLoop_ok order.items (createOrder user req db).db.products [] hpres
    have hw := handleWebhook_pending okf hfind rfl hdok
    have hdisp := @dispatchAll_all_ok
      (decLoop order.items (createOrder user req db).db.products []).farmers
      (saleMsg oid) okf hok
    rw [hdisp] at hw
    simp only at hw
    rw [if_pos trivial] at hw
    refine ⟨by rw [hco], ?_, by rw [hw], ?_⟩
    · intro pid
      have h1 : qtyOf (createOrder user req db).db pid = pQty out.products pid := by
        rw [hco]; rfl
      rw [h1, processItems_pQty hp]
      rfl
    · intro pid
      rw [hw]
      have h2 : qtyOf (⟨(decLoop order.items (createOrder user req db).db.products []).products,
          saveOrder (createOrder user req db).db.orders
            { order with paymentStatus := PaymentStatus.paid },
          (createOrder user req db).db.notifications⟩ : DB) pid
          = pQty (createOrder user req db).db.products pid - orderedQty order.items pid := by
        unfold qtyOf
        exact decLoop_pQty hpres pid
      rw [h2]
      have h3 : pQty (createOrder user req db).db.products pid
          = pQty db.products pid - reqQty req.items pid := by
        rw [hco]
        exact processItems_pQty hp pid
      have h4 : orderedQty order.items pid = reqQty req.items pid :=
        processItems_orderedQty hp pid
      rw [h3, h4]
      unfold qtyOf
      omega

/-- Witness for C4 at the concrete `demoDB` scenario: initial stock 1,
final stock after creation plus webhook is `1 - 2·1 = -1`. -/
theorem create_then_webhook_double_decrement_witness :
    (createOrder 5 demoReq demoDB).orderId = some demoDB.orders.length ∧
    (∀ pid, qtyOf (createOrder 5 demoReq demoDB).db pid
      = qtyOf demoDB pid - reqQty demoReq.items pid) ∧
    (handleWebhook (createOrder 5 demoReq demoDB).db demoDB.orders.length
        (fun _ => true)).status = 200 ∧
    ∀ pid, qtyOf (handleWebhook (createOrder 5 demoReq demoDB).db demoDB.orders.length
        (fun _ => true)).db pid
      = qtyOf demoDB pid - 2 * reqQty demoReq.items pid :=
  create_then_webhook_double_decrement demoDB 5 demoReq (fun _ => true)
    rfl rfl (fun _ => rfl)

/-! ## Claim C8 -/

/-- **C8 counterexample.** A successful Stripe order creation whose event
trace performs the payment-gateway call strictly before the transaction
commit: the gateway network call is executed inside the same atomic boundary
as the stock-reservation and order-persistence transaction, contrary to the
claim that it only happens after commit. -/
theorem gateway_call_inside_transaction_cx :
    demoReq.paymentMethod = "stripe" ∧
    (createOrder 5 demoReq demoDB).status = 200 ∧
    callBeforeCommit (createOrder 5 demoReq demoDB).trace = true :=
  ⟨rfl, rfl, rfl⟩

theorem callBeforeCommit_stockDecs (items : List ReqItem) (l : List Ev) :
    callBeforeCommit ((items.map fun it => Ev.stockDec it.product it.quantity) ++ l)
      = callBeforeCommit l := by
  induction items with
  | nil => rfl
  | cons it rest ih =>
    simp only [List.map_cons, List.cons_append]
    exact ih

theorem callBeforeCommit_create_shape (items : List ReqItem) (oid : Nat) (amt : Int)
    (l : List Ev) :
    callBeforeCommit (Ev.txBegin :: ((items.map fun it => Ev.stockDec it.product it.quantity)
      ++ Ev.persistOrder oid :: Ev.gatewayCall amt oid :: l)) = true := by
  show callBeforeCommit ((items.map fun it => Ev.stockDec it.product it.quantity)
      ++ Ev.persistOrder oid :: Ev.gatewayCall amt oid :: l) = true
  rw [callBeforeCommit_stockDecs]
  rfl

/-- **C8 amended.** For every successful order creation with the Stripe
payment method, the payment-intent request to the gateway is issued inside
the open database transaction — after the order document is persisted and
before `commitTransaction` — not after commit. -/
theorem gateway_call_issued_inside_transaction
    (db : DB) (user : Nat) (req : CreateReq)
    (h200 : (createOrder user req db).status = 200)
    (hpm : req.paymentMethod = "stripe") :
    callBeforeCommit (createOrder user req db).trace = true := by
  by_cases hne : req.items = []
  · rw [show createOrder user req db
        = ⟨400, some "Order must contain at least one item", none, db, [],
           [.txBegin, .txAbort]⟩ from by unfold createOrder; rw [if_pos hne]] at h200
    simp at h200
  by_cases hs : req.shippingAddress = none
  · rw [show createOrder user req db
        = ⟨400, some "Shipping address is required", none, db, [],
           [.txBegin, .txAbort]⟩ from by
          unfold createOrder; rw [if_neg hne, if_pos hs]] at h200
    simp at h200
  cases hp : processItems req.items db.products with
  | error e =>
    rw [createOrder_err hne hs hp] at h200
    simp at h200
  | ok out =>
    rw [createOrder_ok hne hs hp]
    simp only [if_pos hpm, List.append_assoc, List.cons_append, List.nil_append,
      List.singleton_append]
    exact callBeforeCommit_create_shape req.items db.orders.length out.total _

/-- Witness for the amended C8 at the concrete `demoDB` scenario. -/
theorem gateway_call_issued_inside_transaction_witness :
    callBeforeCommit (createOrder 5 demoReq demoDB).trace = true :=
  gateway_call_issued_inside_transaction demoDB 5 demoReq rfl rfl

/-! ## Claim C7 -/

/-- The pending order of customer 5 used in the status-coordinator scenarios:
one item of product 1, owned by farmer 7. -/
def putOrd : Order := ⟨0, 5, [⟨1, 1, 10⟩], 10, PaymentStatus.pending, "pending", none⟩

/-- Database for the status-coordinator scenarios. -/
def putDB : DB := ⟨[⟨1, "Apples", 7, 10, 5⟩], [putOrd], []⟩

/-- **C7.** A user who is neither the buyer of an order nor a seller owning a
product in its items receives Forbidden (403) from both the status-read
(`GET`) and the status-write (`PUT`, carrying at least one updatable field)
operations, and the write leaves the database unchanged (the read performs no
write by construction). -/
theorem order_access_forbidden_for_third_party
    (db : DB) (u : Nat) (role : String) (oid : Nat) (sReq pReq : Option String) (o : Order)
    (ho : findOrder db oid = some o)
    (hbuyer : o.customer ≠ u)
    (hseller : isFarmerInvolved db o u = false)
    (hreq : ¬(sReq = none ∧ pReq = none)) :
    getOrder db u oid = 403 ∧ putOrder db u role oid sReq pReq = ⟨403, db, []⟩ := by
  constructor
  · unfold getOrder
    simp only [ho]
    rw [if_pos ⟨hbuyer, hseller⟩]
  · unfold putOrder
    rw [if_neg hreq]
    simp only [ho]
    rw [if_pos ⟨hbuyer, hseller⟩]

/-- Witness for C7: user 9 (neither customer 5 nor farmer 7) is rejected with
403 by both handlers on `putDB`'s order. -/
theorem order_access_forbidden_for_third_party_witness :
    getOrder putDB 9 0 = 403 ∧
    putOrder putDB 9 "farmer" 0 (some "shipped") none = ⟨403, putDB, []⟩ :=
  order_access_forbidden_for_third_party putDB 9 "farmer" 0 (some "shipped") none putOrd
    rfl (by decide) (by decide) (by simp)

/-! ## Claim C9 -/

/-- **C9 counterexample.** The buyer (customer 5, role `customer`, not a
seller) sends a payment self-confirmation that also carries a
fulfillment-status value: `PUT` with `{status: "shipped", paymentStatus:
"paid"}`.  The request succeeds, the order's fulfillment status is *not*
changed (still `"pending"`), yet a buyer notification referencing `'shipped'`
is written — so a buyer notification is written although the fulfillment
status did not change, contrary to the claim. -/
theorem buyer_notified_without_fulfillment_change_cx :
    (putOrder putDB 5 "customer" 0 (some "shipped") (some "paid")).status = 200 ∧
    (findOrder (putOrder putDB 5 "customer" 0 (some "shipped") (some "paid")).db 0).map
        Order.fulfillment = some "pending" ∧
    (findOrder (putOrder putDB 5 "customer" 0 (some "shipped") (some "paid")).db 0).map
        Order.paymentStatus = some PaymentStatus.paid ∧
    (putOrder putDB 5 "customer" 0 (some "shipped") (some "paid")).db.notifications
      = [⟨5, statusUpdateMsg 0 "shipped", some ("/orders/" ++ toString 0)⟩] :=
  ⟨rfl, rfl, rfl, rfl⟩

/-- **C9 amended.** In the `PUT` handler, a buyer notification is written iff
the request succeeds (HTTP 200) *and* the request body carries a truthy
fulfillment-status value — regardless of whether that value was actually
applied to the order.  In particular a payment-status self-confirmation
without a `status` field writes no buyer notification, but one that smuggles
a `status` field does, even though the buyer cannot change the fulfillment
status. -/
theorem put_buyer_notification_keyed_on_request_field
    (db : DB) (u : Nat) (role : String) (oid : Nat) (sReq pReq : Option String) :
    (∃ st, sReq = some st ∧ ∃ o, findOrder db oid = some o ∧
        (putOrder db u role oid sReq pReq).status = 200 ∧
        (putOrder db u role oid sReq pReq).db.notifications
          = db.notifications
              ++ [⟨o.customer, statusUpdateMsg oid st, some ("/orders/" ++ toString oid)⟩]) ∨
    ((putOrder db u role oid sReq pReq).db.notifications = db.notifications ∧
      ((putOrder db u role oid sReq pReq).status = 200 → sReq = none)) := by
  have haux : ∀ r : PutResult, r = putOrder db u role oid sReq pReq →
      (∃ st, sReq = some st ∧ ∃ o, findOrder db oid = some o ∧
          r.status = 200 ∧
          r.db.notifications
            = db.notifications
                ++ [⟨o.customer, statusUpdateMsg oid st,
                     some ("/orders/" ++ toString oid)⟩]) ∨
      (r.db.notifications = db.notifications ∧ (r.status = 200 → sReq = none)) := by
    intro r hr
    unfold putOrder at hr
    cases pReq with
    | none =>
      cases sReq with
      | none =>
        rw [if_pos ⟨rfl, rfl⟩] at hr
        subst hr
        exact Or.inr ⟨rfl, fun _ => rfl⟩
      | some st =>
        rw [if_neg (by simp)] at hr
        cases hfo : findOrder db oid with
        | none =>
          simp only [hfo] at hr
          subst hr
          exact Or.inr ⟨rfl, fun h => by simp at h⟩
        | some o =>
          simp only [hfo] at hr
          by_cases hauth : ¬(o.customer = u) ∧ isFarmerInvolved db o u = false
          · rw [if_pos hauth] at hr
            subst hr
            exact Or.inr ⟨rfl, fun h => by simp at h⟩
          · rw [if_neg hauth] at hr
            by_cases hinv : isFarmerInvolved db o u = true
            · rw [if_pos hinv] at hr
              by_cases hrole : role = "farmer"
              · rw [if_neg (not_not_intro hrole)] at hr
                subst hr
                exact Or.inl ⟨st, rfl, o, rfl, rfl, rfl⟩
              · rw [if_pos hrole] at hr
                subst hr
                exact Or.inr ⟨rfl, fun h => by simp at h⟩
            · rw [if_neg hinv] at hr
              subst hr
              exact Or.inr ⟨rfl, fun h => by simp at h⟩
    | some ps =>
      cases sReq with
      | none =>
        rw [if_neg (by simp)] at hr
        cases hfo : findOrder db oid with
        | none =>
          simp only [hfo] at hr
          subst hr
          exact Or.inr ⟨rfl, fun h => by simp at h⟩
        | some o =>
          simp only [hfo] at hr
          by_cases hauth : ¬(o.customer = u) ∧ isFarmerInvolved db o u = false
          · rw [if_pos hauth] at hr
            subst hr
            exact Or.inr ⟨rfl, fun h => by simp at h⟩
          · rw [if_neg hauth] at hr
            by_cases hc : o.customer = u
            · rw [if_pos hc] at hr
              by_cases hps : ps = "paid"
              · rw [if_pos hps] at hr
                subst hr
                exact Or.inr ⟨rfl, fun _ => rfl⟩
              · rw [if_neg hps] at hr
                subst hr
                exact Or.inr ⟨rfl, fun h => by simp at h⟩
            · rw [if_neg hc] at hr
              subst hr
              exact Or.inr ⟨rfl, fun h => by simp at h⟩
      | some st =>
        rw [if_neg (by simp)] at hr
        cases hfo : findOrder db oid with
        | none =>
          simp only [hfo] at hr
          subst hr
          exact Or.inr ⟨rfl, fun h => by simp at h⟩
        | some o =>
          simp only [hfo] at hr
          by_cases hauth : ¬(o.customer = u) ∧ isFarmerInvolved db o u = false
          · rw [if_pos hauth] at hr
            subst hr
            exact Or.inr ⟨rfl, fun h => by simp at h⟩
          · rw [if_neg hauth] at hr
            by_cases hc : o.customer = u
            · rw [if_pos hc] at hr
              by_cases hps : ps = "paid"
              · rw [if_pos hps] at hr
                simp only [] at hr
                by_cases hinv : isFarmerInvolved db o u = true
                · rw [if_pos hinv] at hr
                  by_cases hrole : role = "farmer"
                  · rw [if_neg (not_not_intro hrole)] at hr
                    subst hr
                    exact Or.inl ⟨st, rfl, o, rfl, rfl, rfl⟩
                  · rw [if_pos hrole] at hr
                    subst hr
                    exact Or.inr ⟨rfl, fun h => by simp at h⟩
                · rw [if_neg hinv] at hr
                  subst hr
                  exact Or.inl ⟨st, rfl, o, rfl, rfl, rfl⟩
              · rw [if_neg hps] at hr
                subst hr
                exact Or.inr ⟨rfl, fun h => by simp at h⟩
            · rw [if_neg hc] at hr
              simp only [] at hr
              by_cases hinv : isFarmerInvolved db o u = true
              · rw [if_pos hinv] at hr
                by_cases hrole : role = "farmer"
                · rw [if_neg (not_not_intro hrole)] at hr
                  subst hr
                  exact Or.inl ⟨st, rfl, o, rfl, rfl, rfl⟩
                · rw [if_pos hrole] at hr
                  subst hr
                  exact Or.inr ⟨rfl, fun h => by simp at h⟩
              · rw [if_neg hinv] at hr
                subst hr
                exact Or.inr ⟨rfl, fun h => by simp at h⟩
  exact haux _ rfl

end Marketplace
